import Mathlib

/-!
# Verification of the shortie URL-shortener storage core

Shallow embedding of the Go program:
* `storage.go` — `URLObject`, `LocalStorage` (in-memory backend), `DynamoStorage`
  (remote backend over a DynamoDB table), `UTCTimestampOfTodayRounded`.
* the API file — `shortieAPI.CreateURL` (identifier generation) and
  `shortieAPI.GetUsageStats` (statistics aggregation).

Modelling conventions:
* Go `map[string]T` is modelled as an association list `List (String × T)`;
  map read with zero default is `Usage.getD`, map assignment is `setKey`
  (replaces the binding if the key is present, appends otherwise),
  `delete` is `eraseKey`.
* Go `int64` values (expiration timestamps, usage counters) are modelled as
  `Int`; none of the verified behaviors approach 2^63, so wrap-around is not
  modelled.
* `time.Time` is modelled by its unix-seconds value (`Int`).
  `time.Time.Truncate (24h)` rounds down to a multiple of 24h measured from
  Go's zero time (midnight UTC, Jan 1, year 1), which is itself a whole
  number of days before the unix epoch, so on unix-second values it is
  flooring to a multiple of 86400; `Int`'s `/` is Euclidean division, which
  floors for a positive divisor.
* A Go `error` result is `Option String` (`none` = `nil`).
* The DynamoDB service itself is modelled as a key-addressed table that
  answers every request (`BackendFailure`, i.e. network/serialization
  failure, is outside the model); conditional writes and point reads act on
  that table.  A Go runtime panic (nil-pointer dereference) is a distinct
  outcome, never a returned value.
-/

/-! ## Association-list maps (Go `map[string]α`) -/

/-- Read a Go map: the value bound to `k`, if `k` is present. -/
def lookupKey {α : Type} : List (String × α) → String → Option α
  | [], _ => none
  | (k', v) :: rest, k => if k' = k then some v else lookupKey rest k

/-- Go map assignment `m[k] = v`: replace the binding if present, append otherwise. -/
def setKey {α : Type} : List (String × α) → String → α → List (String × α)
  | [], k, v => [(k, v)]
  | (k', v') :: rest, k, v =>
      if k' = k then (k, v) :: rest else (k', v') :: setKey rest k v

/-- Go `delete(m, k)`: remove the binding for `k`. -/
def eraseKey {α : Type} : List (String × α) → String → List (String × α)
  | [], _ => []
  | (k', v') :: rest, k => if k' = k then rest else (k', v') :: eraseKey rest k

/-- Number of bindings for key `k` (1 or 0 for a real map state). -/
def countKey {α : Type} : List (String × α) → String → Nat
  | [], _ => 0
  | (k', _) :: rest, k => (if k' = k then 1 else 0) + countKey rest k

theorem lookupKey_setKey {α : Type} (l : List (String × α)) (k k' : String) (v : α) :
    lookupKey (setKey l k v) k' = if k = k' then some v else lookupKey l k' := by
  induction l with
  | nil => simp [setKey, lookupKey]
  | cons p rest ih =>
    obtain ⟨k₀, v₀⟩ := p
    simp only [setKey]
    by_cases h0 : k₀ = k
    · subst h0
      by_cases h : k₀ = k' <;> simp [lookupKey, h]
    · rw [if_neg h0]
      by_cases h : k₀ = k'
      · subst h
        simp [lookupKey]
        exact (if_neg (fun hh : k = k₀ => h0 hh.symm)).symm
      · simp [lookupKey, h, ih]

theorem lookupKey_eq_none_of_countKey_eq_zero {α : Type} (l : List (String × α))
    (k : String) (hz : countKey l k = 0) : lookupKey l k = none := by
  induction l with
  | nil => rfl
  | cons p rest ih =>
    obtain ⟨k₀, v₀⟩ := p
    by_cases h : k₀ = k
    · subst h; simp [countKey] at hz
    · simp only [countKey, if_neg h, Nat.zero_add] at hz
      simp [lookupKey, h, ih hz]

theorem lookupKey_eraseKey_self {α : Type} (l : List (String × α)) (k : String)
    (hnd : countKey l k ≤ 1) : lookupKey (eraseKey l k) k = none := by
  induction l with
  | nil => simp [eraseKey, lookupKey]
  | cons p rest ih =>
    obtain ⟨k₀, v₀⟩ := p
    by_cases h : k₀ = k
    · subst h
      simp [countKey] at hnd
      simp only [eraseKey, if_pos rfl]
      exact lookupKey_eq_none_of_countKey_eq_zero rest k₀ (by omega)
    · simp only [countKey, if_neg h, Nat.zero_add] at hnd
      simp [eraseKey, lookupKey, h, ih hnd]

/-! ## Data model (`storage.go`) -/

/-- The persisted record (`URLObject` in `storage.go`). -/
structure URLObject where
  shortID : String
  url : String
  version : Int
  expiration : Int
  usage : List (String × Int)
deriving Repr, DecidableEq

/-- The raw day-bucket usage mapping (`map[string]int64` in Go). -/
abbrev Usage := List (String × Int)

/-- Go map read `u[k]`: the bound value, or the zero value `0` when absent. -/
def Usage.getD (u : Usage) (k : String) : Int := (lookupKey u k).getD 0

/-- `UTCTimestampOfTodayRounded` (`storage.go`):
`time.Now().UTC().Truncate(time.Hour * 24)` — the current instant floored to
UTC midnight, as a unix-seconds value. -/
def UTCTimestampOfTodayRounded (now : Int) : Int := 86400 * (now / 86400)

/-! ## In-memory backend (`LocalStorage`, `storage.go`)

Every operation holds the single mutex for its whole body, so each call is an
atomic state transition; the embedding is the resulting sequential function on
the map state.  Each operation returns the new state together with the Go
return values. -/

/-- `LocalStorage`: the whole record set, keyed by short id. -/
structure LocalStorage where
  Objects : List (String × URLObject)
deriving Repr, DecidableEq

/-- `LocalStorage.SaveURL`: create-if-absent; an existing record is left
untouched and `nil` is returned. -/
def LocalStorage.SaveURL (storage : LocalStorage) (shortID url : String)
    (expiration : Int) : LocalStorage × Option String :=
  match lookupKey storage.Objects shortID with
  | some _ => (storage, none)
  | none =>
      (⟨setKey storage.Objects shortID
          { shortID := shortID, url := url, version := 0,
            expiration := expiration, usage := [] }⟩, none)

/-- `LocalStorage.GetURL`: point read; on a hit, increments today's usage
bucket synchronously and returns the stored URL; on a miss returns `""`.
`now` is the current unix time consulted by `UTCTimestampOfTodayRounded`. -/
def LocalStorage.GetURL (storage : LocalStorage) (now : Int) (shortID : String) :
    LocalStorage × String × Option String :=
  match lookupKey storage.Objects shortID with
  | none => (storage, "", none)
  | some object =>
      let todayTimestamp := toString (UTCTimestampOfTodayRounded now)
      let todayUsage := Usage.getD object.usage todayTimestamp
      let object' := { object with
        usage := setKey object.usage todayTimestamp (todayUsage + 1) }
      (⟨setKey storage.Objects shortID object'⟩, object'.url, none)

/-- `LocalStorage.DeleteURL`: unconditional `delete` on the map. -/
def LocalStorage.DeleteURL (storage : LocalStorage) (shortID : String) :
    LocalStorage × Option String :=
  (⟨eraseKey storage.Objects shortID⟩, none)

/-- `LocalStorage.GetStatistics`: returns the record's usage mapping, or an
empty mapping when the id is absent.  The state is unchanged. -/
def LocalStorage.GetStatistics (storage : LocalStorage) (shortID : String) :
    LocalStorage × Usage × Option String :=
  match lookupKey storage.Objects shortID with
  | none => (storage, [], none)
  | some object => (storage, object.usage, none)

/-! ## Remote backend (`DynamoStorage`, `storage.go`)

The DynamoDB table `shortie-urls` is modelled as a map from the partition key
`shortID` to the stored item.  The service is assumed to answer every request
(request/serialization failures — the `BackendFailure` paths — are outside the
model); what remains is the table semantics of each call: the conditional
`PutItem` of `SaveURL`, the point reads, and the unconditional `DeleteItem`. -/

/-- The state of the `shortie-urls` DynamoDB table. -/
abbrev DynamoTable := List (String × URLObject)

/-- `DynamoStorage.getObject`: point read (`GetItem`); `none` models both the
Go `nil` item pointer for a missing key.  For a present item the unmarshalled
object is returned (the `object.Usage == nil` normalization in the source is
the identity here, since a stored usage mapping is always a list). -/
def DynamoStorage.getObject (table : DynamoTable) (shortID : String) :
    Option URLObject :=
  lookupKey table shortID

/-- `DynamoStorage.SaveURL`: `PutItem` with condition
`attribute_not_exists(shortID)`.  When the item already exists the service
answers `ConditionalCheckFailedException`, which the code swallows as success;
otherwise the fresh item (version 0, empty usage) is written. -/
def DynamoStorage.SaveURL (table : DynamoTable) (shortID url : String)
    (expiration : Int) : DynamoTable × Option String :=
  match lookupKey table shortID with
  | some _ => (table, none)
  | none =>
      (setKey table shortID
        { shortID := shortID, url := url, version := 0,
          expiration := expiration, usage := [] }, none)

/-- The detached usage-increment task spawned by `DynamoStorage.GetURL` on a
hit: it increments today's bucket of the in-hand `object` and overwrites the
whole item with an unconditional `PutItem`. -/
def DynamoStorage.incrementTask (table : DynamoTable) (now : Int)
    (object : URLObject) : DynamoTable :=
  let todayTimestamp := toString (UTCTimestampOfTodayRounded now)
  let todayUsage := Usage.getD object.usage todayTimestamp
  let object' := { object with
    usage := setKey object.usage todayTimestamp (todayUsage + 1) }
  setKey table object'.shortID object'

/-- `DynamoStorage.GetURL`, synchronous part: point read; `""` with no error
on a miss, otherwise the stored URL is returned immediately (the usage
increment runs in a detached goroutine, `DynamoStorage.incrementTask`). -/
def DynamoStorage.GetURL (table : DynamoTable) (shortID : String) :
    String × Option String :=
  match DynamoStorage.getObject table shortID with
  | none => ("", none)
  | some object => (object.url, none)

/-- `DynamoStorage.DeleteURL`: unconditional `DeleteItem` by key; succeeds
whether or not the item exists. -/
def DynamoStorage.DeleteURL (table : DynamoTable) (shortID : String) :
    DynamoTable × Option String :=
  (eraseKey table shortID, none)

/-- Outcome of a Go function that can also die with a runtime panic. -/
inductive StatsOutcome where
  /-- The function returned normally with this usage mapping and error. -/
  | returns (usage : Usage) (err : Option String) : StatsOutcome
  /-- The function panicked dereferencing a nil `*URLObject`. -/
  | nilPointerPanic : StatsOutcome
deriving Repr, DecidableEq

/-- `DynamoStorage.GetStatistics`: point read, then `return object.Usage, nil`.
When the id is absent, `getObject` returns a `nil` pointer and no error, and
`object.Usage` dereferences that nil pointer: the call panics instead of
returning. -/
def DynamoStorage.GetStatistics (table : DynamoTable) (shortID : String) :
    StatsOutcome :=
  match DynamoStorage.getObject table shortID with
  | none => StatsOutcome.nilPointerPanic
  | some object => StatsOutcome.returns object.usage none

/-! ## Statistics aggregation (`shortieAPI.GetUsageStats`) -/

/-- The JSON body answered by the stats endpoint. -/
structure UsageStats where
  lastDay : Int
  lastWeek : Int
  allTime : Int
deriving Repr, DecidableEq

namespace shortieAPI

/-- The `for i := 0; i < 6; i++` loop of `GetUsageStats`: each iteration moves
`dayTimestamp` back 24 hours and adds that day's bucket to `weekUsage`. -/
def weekUsageLoop (usage : Usage) : Nat → Int → Int → Int
  | 0, _, weekUsage => weekUsage
  | n + 1, dayTimestamp, weekUsage =>
      let dayTimestamp' := dayTimestamp - 86400
      weekUsageLoop usage n dayTimestamp'
        (weekUsage + Usage.getD usage (toString dayTimestamp'))

/-- The aggregation performed by `shortieAPI.GetUsageStats` on the raw usage
mapping returned by `GetStatistics`, at current unix time `now`. -/
def GetUsageStats (usage : Usage) (now : Int) : UsageStats :=
  let todayTimestamp := UTCTimestampOfTodayRounded now
  let todayUsage := Usage.getD usage (toString (UTCTimestampOfTodayRounded now))
  let weekUsage := weekUsageLoop usage 6 todayTimestamp todayUsage
  let totalUsage := usage.foldl (fun acc dayUsage => acc + dayUsage.2) 0
  { lastDay := todayUsage, lastWeek := weekUsage, allTime := totalUsage }

end shortieAPI

/-! ## Identifier generation (`shortieAPI.CreateURL`)

`CreateURL` computes `uuid.NewSHA1(uuid.NameSpaceURL, []byte(url))`, renders
it with `uuid.String()` (lowercase hex, hyphenated 8-4-4-4-12), strips the
hyphens with `strings.ReplaceAll` and keeps the first 10 bytes.

`uuid.NewSHA1` (the google/uuid library, not part of this repository) hashes
`namespace ∥ data` with SHA-1, keeps the first 16 bytes of the digest, and
forces the version nibble to 5 and the RFC-4122 variant bits.  The SHA-1
digest is modelled as `sha1DigestWord`, an arbitrary deterministic pure
function of the URL: every property claimed of the identifier (fixed length,
lowercase alphabet, determinism) depends only on the digest being a
deterministic byte source, which SHA-1 is. -/

/-- Stand-in for the SHA-1 digest over `uuid.NameSpaceURL ∥ url`: a
deterministic 128-bit word computed from the URL's characters.  Only
determinism and the byte decomposition below matter to the claims. -/
def sha1DigestWord (url : String) : Nat :=
  url.data.foldl (fun acc c => (acc * 65599 + c.toNat + 1) % 2 ^ 128) 5381

/-- Byte `i` of the version-5 UUID: byte `i` of the digest, except that byte 6
carries the version nibble (`(b & 0x0f) | 0x50`) and byte 8 the RFC-4122
variant bits (`(b & 0x3f) | 0x80`). -/
def uuidByte (url : String) (i : Nat) : Nat :=
  let b := sha1DigestWord url / 256 ^ i % 256
  if i = 6 then b % 16 + 80
  else if i = 8 then b % 64 + 128
  else b

/-- Lowercase hex encoding of one byte, as in `uuid.String()`. -/
def byteHex (b : Nat) : List Char :=
  [Nat.digitChar (b / 16 % 16), Nat.digitChar (b % 16)]

/-- The characters of `uuid.String()`: 16 bytes in lowercase hex, hyphenated
after bytes 4, 6, 8 and 10 (the 8-4-4-4-12 layout). -/
def uuidStringChars (url : String) : List Char :=
  byteHex (uuidByte url 0) ++ byteHex (uuidByte url 1) ++
    byteHex (uuidByte url 2) ++ byteHex (uuidByte url 3) ++ ['-'] ++
    byteHex (uuidByte url 4) ++ byteHex (uuidByte url 5) ++ ['-'] ++
    byteHex (uuidByte url 6) ++ byteHex (uuidByte url 7) ++ ['-'] ++
    byteHex (uuidByte url 8) ++ byteHex (uuidByte url 9) ++ ['-'] ++
    byteHex (uuidByte url 10) ++ byteHex (uuidByte url 11) ++
    byteHex (uuidByte url 12) ++ byteHex (uuidByte url 13) ++
    byteHex (uuidByte url 14) ++ byteHex (uuidByte url 15)

namespace shortieAPI

/-- The `shortID` computed inside `shortieAPI.CreateURL`:
`strings.ReplaceAll(guid.String(), "-", "")[0:10]` — drop the hyphens, keep
the first 10 bytes (every remaining character is ASCII, so bytes = chars). -/
def CreateURLShortID (url : String) : String :=
  (((uuidStringChars url).filter (fun c => c != '-')).take 10).asString

end shortieAPI

/-- The sixteen lowercase hex characters — the alphabet of `uuid.String()`
minus the hyphen. -/
def lowercaseHexChars : List Char := "0123456789abcdef".toList

theorem digitChar_mem_lowercaseHex (m : Nat) (h : m < 16) :
    Nat.digitChar m ∈ lowercaseHexChars := by
  have : ∀ m' : Fin 16, Nat.digitChar m'.val ∈ lowercaseHexChars := by decide
  exact this ⟨m, h⟩

theorem mem_byteHex_lowercaseHex {c : Char} {b : Nat} (hc : c ∈ byteHex b) :
    c ∈ lowercaseHexChars := by
  simp only [byteHex, List.mem_cons, List.not_mem_nil, or_false] at hc
  rcases hc with h | h <;> subst h
  · exact digitChar_mem_lowercaseHex _ (Nat.mod_lt _ (by norm_num))
  · exact digitChar_mem_lowercaseHex _ (Nat.mod_lt _ (by norm_num))

theorem filter_byteHex (b : Nat) :
    (byteHex b).filter (fun c => c != '-') = byteHex b := by
  rw [List.filter_eq_self]
  intro c hc
  have hmem := mem_byteHex_lowercaseHex hc
  have : ∀ c' ∈ lowercaseHexChars, (c' != '-') = true := by decide
  exact this c hmem

/-! ## Decimal bucket keys are unique

`strconv.Itoa` in Go and `toString : Int → String` in the embedding both
produce the canonical decimal representation, so distinct timestamps yield
distinct day-bucket keys.  Injectivity is proved against the fuelled
`Nat.toDigitsCore` underlying `Nat.repr`. -/

/-- Decimal digit characters of `n`, most significant first. -/
def decChars (n : Nat) : List Char :=
  if _h : n < 10 then [Nat.digitChar n]
  else decChars (n / 10) ++ [Nat.digitChar (n % 10)]
decreasing_by exact Nat.div_lt_self (by omega) (by norm_num)

theorem decChars_small {n : Nat} (h : n < 10) : decChars n = [Nat.digitChar n] := by
  rw [decChars]
  exact dif_pos h

theorem decChars_large {n : Nat} (h : ¬n < 10) :
    decChars n = decChars (n / 10) ++ [Nat.digitChar (n % 10)] := by
  conv_lhs => rw [decChars]
  exact dif_neg h

theorem toDigitsCore_eq_decChars (f : Nat) :
    ∀ (n : Nat) (l : List Char), n < 10 ^ f → 0 < f →
      Nat.toDigitsCore 10 f n l = decChars n ++ l := by
  induction f with
  | zero => intro n l _ hf; omega
  | succ f ih =>
    intro n l hn _
    show (if n / 10 = 0 then Nat.digitChar (n % 10) :: l
          else Nat.toDigitsCore 10 f (n / 10) (Nat.digitChar (n % 10) :: l)) =
        decChars n ++ l
    by_cases h0 : n / 10 = 0
    · have hlt : n < 10 := by omega
      rw [if_pos h0, decChars_small hlt, Nat.mod_eq_of_lt hlt]
      rfl
    · rw [if_neg h0]
      have h10 : 10 ≤ n := by omega
      have hf : 0 < f := by
        rcases Nat.eq_zero_or_pos f with rfl | hf
        · norm_num at hn; omega
        · exact hf
      have hdiv : n / 10 < 10 ^ f := by
        apply Nat.div_lt_of_lt_mul
        rw [pow_succ'] at hn
        exact hn
      rw [ih (n / 10) (Nat.digitChar (n % 10) :: l) hdiv hf,
        decChars_large (by omega : ¬n < 10), List.append_assoc]
      rfl

theorem Nat_repr_eq_decChars (n : Nat) : Nat.repr n = (decChars n).asString := by
  show (Nat.toDigitsCore 10 (n + 1) n []).asString = (decChars n).asString
  rw [toDigitsCore_eq_decChars (n + 1) n []
    (lt_of_lt_of_le (Nat.lt_pow_self (by norm_num) n)
      (Nat.pow_le_pow_right (by norm_num) (Nat.le_succ n)))
    (Nat.succ_pos n), List.append_nil]

theorem digitChar_inj_lt10 {a b : Nat} (ha : a < 10) (hb : b < 10)
    (h : Nat.digitChar a = Nat.digitChar b) : a = b := by
  have key : ∀ a' b' : Fin 10,
      Nat.digitChar a'.val = Nat.digitChar b'.val → a'.val = b'.val := by decide
  exact key ⟨a, ha⟩ ⟨b, hb⟩ h

theorem decChars_ne_nil (n : Nat) : decChars n ≠ [] := by
  rw [decChars]
  split <;> simp

/-- The ten decimal digit characters. -/
def decDigitChars : List Char := "0123456789".toList

theorem mem_decChars (n : Nat) : ∀ c ∈ decChars n, c ∈ decDigitChars := by
  induction n using Nat.strong_induction_on with
  | _ n ih =>
    intro c hc
    by_cases h : n < 10
    · rw [decChars, dif_pos h] at hc
      simp only [List.mem_singleton] at hc
      subst hc
      exact (by decide : ∀ m : Fin 10, Nat.digitChar m.val ∈ decDigitChars) ⟨n, h⟩
    · rw [decChars, dif_neg h] at hc
      rcases List.mem_append.mp hc with h1 | h1
      · exact ih (n / 10) (Nat.div_lt_self (by omega) (by norm_num)) c h1
      · simp only [List.mem_singleton] at h1
        subst h1
        exact (by decide : ∀ m : Fin 10, Nat.digitChar m.val ∈ decDigitChars)
          ⟨n % 10, Nat.mod_lt _ (by norm_num)⟩

theorem hyphen_not_mem_decChars (n : Nat) : '-' ∉ decChars n := by
  intro h
  have := mem_decChars n '-' h
  simp [decDigitChars] at this

theorem decChars_injective (m n : Nat) (h : decChars m = decChars n) : m = n := by
  induction m using Nat.strong_induction_on generalizing n with
  | _ m ih =>
    by_cases hm : m < 10 <;> by_cases hn : n < 10
    · rw [decChars_small hm, decChars_small hn] at h
      exact digitChar_inj_lt10 hm hn (List.cons.inj h).1
    · rw [decChars_small hm, decChars_large hn] at h
      have hlen := congrArg List.length h
      simp only [List.length_singleton, List.length_append] at hlen
      have h0 : decChars (n / 10) = [] :=
        List.length_eq_zero.mp (by omega)
      exact absurd h0 (decChars_ne_nil _)
    · rw [decChars_large hm, decChars_small hn] at h
      have hlen := congrArg List.length h
      simp only [List.length_singleton, List.length_append] at hlen
      have h0 : decChars (m / 10) = [] :=
        List.length_eq_zero.mp (by omega)
      exact absurd h0 (decChars_ne_nil _)
    · rw [decChars_large hm, decChars_large hn] at h
      obtain ⟨h1, h2⟩ := List.append_inj' h (by simp)
      have hd : m % 10 = n % 10 :=
        digitChar_inj_lt10 (Nat.mod_lt _ (by norm_num)) (Nat.mod_lt _ (by norm_num))
          (List.cons.inj h2).1
      have hq : m / 10 = n / 10 :=
        ih (m / 10) (Nat.div_lt_self (by omega) (by norm_num)) (n / 10) h1
      omega

theorem Nat_repr_injective {m n : Nat} (h : Nat.repr m = Nat.repr n) : m = n := by
  rw [Nat_repr_eq_decChars, Nat_repr_eq_decChars] at h
  exact decChars_injective m n (congrArg String.data h)

theorem Int_repr_injective : Function.Injective Int.repr := by
  have hdata : ∀ s t : String, (s ++ t).data = s.data ++ t.data := fun s t => rfl
  intro i j h
  cases i with
  | ofNat m =>
    cases j with
    | ofNat n => exact congrArg Int.ofNat (Nat_repr_injective h)
    | negSucc n =>
      exfalso
      have hd : decChars m = '-' :: (Nat.repr (n + 1)).data := by
        have h2 := congrArg String.data h
        rw [show (Int.ofNat m).repr = Nat.repr m from rfl,
          show (Int.negSucc n).repr = "-" ++ Nat.repr (n + 1) from rfl,
          hdata, Nat_repr_eq_decChars] at h2
        exact h2
      exact hyphen_not_mem_decChars m (hd ▸ List.mem_cons_self '-' _)
  | negSucc m =>
    cases j with
    | ofNat n =>
      exfalso
      have hd : ('-' : Char) :: (Nat.repr (m + 1)).data = decChars n := by
        have h2 := congrArg String.data h
        rw [show (Int.negSucc m).repr = "-" ++ Nat.repr (m + 1) from rfl,
          show (Int.ofNat n).repr = Nat.repr n from rfl,
          hdata, Nat_repr_eq_decChars n] at h2
        exact h2
      exact hyphen_not_mem_decChars n (hd ▸ List.mem_cons_self '-' _)
    | negSucc n =>
      have hd := congrArg String.data h
      rw [show (Int.negSucc m).repr = "-" ++ Nat.repr (m + 1) from rfl,
        show (Int.negSucc n).repr = "-" ++ Nat.repr (n + 1) from rfl,
        hdata, hdata] at hd
      have htail : (Nat.repr (m + 1)).data = (Nat.repr (n + 1)).data :=
        List.append_cancel_left hd
      have hmn : m + 1 = n + 1 := Nat_repr_injective (String.ext htail)
      exact congrArg Int.negSucc (by omega : m = n)

theorem toString_Int_injective : Function.Injective (toString : Int → String) :=
  Int_repr_injective

theorem toString_Int_ne {a b : Int} (h : a ≠ b) : toString a ≠ toString b :=
  fun hc => h (toString_Int_injective hc)

/-! ## HTTP redirect handler (`shortieAPI.HandleRedirect`) -/

/-- The responses `shortieAPI.HandleRedirect` can produce. -/
inductive RedirectResponse where
  /-- Status 500 with the storage error message. -/
  | internalServerError (msg : String) : RedirectResponse
  /-- Status 404, body "Not Found". -/
  | notFound : RedirectResponse
  /-- Status 307 with this `Location` header. -/
  | temporaryRedirect (location : String) : RedirectResponse
deriving Repr, DecidableEq

namespace shortieAPI

/-- `shortieAPI.HandleRedirect` over the in-memory backend: `GetURL`, then
500 on a storage error, 404 when the returned URL equals `""`, otherwise 307
with the URL in the `Location` header.  Also returns the storage state the
call leaves behind. -/
def HandleRedirect (storage : LocalStorage) (now : Int) (shortID : String) :
    RedirectResponse × LocalStorage :=
  let r := storage.GetURL now shortID
  match r.2.2 with
  | some msg => (RedirectResponse.internalServerError msg, r.1)
  | none =>
      if r.2.1 = "" then (RedirectResponse.notFound, r.1)
      else (RedirectResponse.temporaryRedirect r.2.1, r.1)

end shortieAPI

/-! ## General facts about the backend operations -/

theorem getStatistics_state_eq (storage : LocalStorage) (shortID : String) :
    (storage.GetStatistics shortID).1 = storage := by
  unfold LocalStorage.GetStatistics
  split <;> rfl

theorem saveURL_of_present (storage : LocalStorage) {shortID : String}
    (url : String) (expiration : Int) (object : URLObject)
    (h : lookupKey storage.Objects shortID = some object) :
    storage.SaveURL shortID url expiration = (storage, none) := by
  unfold LocalStorage.SaveURL
  rw [h]

theorem dynamoSaveURL_of_present (table : DynamoTable) {shortID : String}
    (url : String) (expiration : Int) (object : URLObject)
    (h : lookupKey table shortID = some object) :
    DynamoStorage.SaveURL table shortID url expiration = (table, none) := by
  unfold DynamoStorage.SaveURL
  rw [h]

theorem countKey_setKey_of_absent {α : Type} (l : List (String × α)) (k : String)
    (v : α) (h : countKey l k = 0) : countKey (setKey l k v) k = 1 := by
  induction l with
  | nil => simp [setKey, countKey]
  | cons p rest ih =>
    obtain ⟨k₀, v₀⟩ := p
    by_cases h0 : k₀ = k
    · subst h0; simp [countKey] at h
    · simp only [countKey, if_neg h0, Nat.zero_add] at h
      simp [setKey, countKey, h0, ih h]

theorem getD_nil (k : String) : Usage.getD [] k = 0 := rfl

theorem getD_cons (k₀ k : String) (v₀ : Int) (rest : Usage) :
    Usage.getD ((k₀, v₀) :: rest) k
      = if k₀ = k then v₀ else Usage.getD rest k := by
  unfold Usage.getD
  show (if k₀ = k then some v₀ else lookupKey rest k).getD 0 = _
  by_cases h : k₀ = k <;> simp [h]

/-- Modelled from the spec: "`lastWeek` = sum of today's bucket plus the six
preceding day buckets (a 7-day trailing window inclusive of today)". -/
def specLastWeek (usage : Usage) (now : Int) : Int :=
  Usage.getD usage (toString (UTCTimestampOfTodayRounded now)) +
  Usage.getD usage (toString (UTCTimestampOfTodayRounded now - 1 * 86400)) +
  Usage.getD usage (toString (UTCTimestampOfTodayRounded now - 2 * 86400)) +
  Usage.getD usage (toString (UTCTimestampOfTodayRounded now - 3 * 86400)) +
  Usage.getD usage (toString (UTCTimestampOfTodayRounded now - 4 * 86400)) +
  Usage.getD usage (toString (UTCTimestampOfTodayRounded now - 5 * 86400)) +
  Usage.getD usage (toString (UTCTimestampOfTodayRounded now - 6 * 86400))

/-- The loop of `GetUsageStats` computes exactly the 7-day trailing window of
the spec: today's bucket plus the six preceding day buckets. -/
theorem lastWeek_eq_specLastWeek (usage : Usage) (now : Int) :
    (shortieAPI.GetUsageStats usage now).lastWeek = specLastWeek usage now := by
  have k1 : UTCTimestampOfTodayRounded now - 86400
      = UTCTimestampOfTodayRounded now - 1 * 86400 := by ring
  have k2 : UTCTimestampOfTodayRounded now - 86400 - 86400
      = UTCTimestampOfTodayRounded now - 2 * 86400 := by ring
  have k3 : UTCTimestampOfTodayRounded now - 86400 - 86400 - 86400
      = UTCTimestampOfTodayRounded now - 3 * 86400 := by ring
  have k4 : UTCTimestampOfTodayRounded now - 86400 - 86400 - 86400 - 86400
      = UTCTimestampOfTodayRounded now - 4 * 86400 := by ring
  have k5 : UTCTimestampOfTodayRounded now - 86400 - 86400 - 86400 - 86400
        - 86400
      = UTCTimestampOfTodayRounded now - 5 * 86400 := by ring
  have k6 : UTCTimestampOfTodayRounded now - 86400 - 86400 - 86400 - 86400
        - 86400 - 86400
      = UTCTimestampOfTodayRounded now - 6 * 86400 := by ring
  show Usage.getD usage (toString (UTCTimestampOfTodayRounded now))
      + Usage.getD usage (toString (UTCTimestampOfTodayRounded now - 86400))
      + Usage.getD usage (toString (UTCTimestampOfTodayRounded now - 86400
          - 86400))
      + Usage.getD usage (toString (UTCTimestampOfTodayRounded now - 86400
          - 86400 - 86400))
      + Usage.getD usage (toString (UTCTimestampOfTodayRounded now - 86400
          - 86400 - 86400 - 86400))
      + Usage.getD usage (toString (UTCTimestampOfTodayRounded now - 86400
          - 86400 - 86400 - 86400 - 86400))
      + Usage.getD usage (toString (UTCTimestampOfTodayRounded now - 86400
          - 86400 - 86400 - 86400 - 86400 - 86400))
      = specLastWeek usage now
  rw [k6, k5, k4, k3, k2, k1]
  rfl

theorem foldl_add_snd (l : List (String × Int)) :
    ∀ a : Int, l.foldl (fun acc dayUsage => acc + dayUsage.2) a
      = a + (l.map Prod.snd).sum := by
  induction l with
  | nil => intro a; simp
  | cons p rest ih =>
    intro a
    simp [List.foldl_cons, ih, add_assoc]

/-- `GetUsageStats` sums every bucket of the mapping into `allTime`. -/
theorem allTime_eq_sum (usage : Usage) (now : Int) :
    (shortieAPI.GetUsageStats usage now).allTime = (usage.map Prod.snd).sum := by
  show usage.foldl (fun acc dayUsage => acc + dayUsage.2) 0 = _
  rw [foldl_add_snd]
  ring

theorem filtered_uuidStringChars (url : String) :
    (uuidStringChars url).filter (fun c => c != '-') =
      byteHex (uuidByte url 0) ++ byteHex (uuidByte url 1) ++
      byteHex (uuidByte url 2) ++ byteHex (uuidByte url 3) ++
      byteHex (uuidByte url 4) ++ byteHex (uuidByte url 5) ++
      byteHex (uuidByte url 6) ++ byteHex (uuidByte url 7) ++
      byteHex (uuidByte url 8) ++ byteHex (uuidByte url 9) ++
      byteHex (uuidByte url 10) ++ byteHex (uuidByte url 11) ++
      byteHex (uuidByte url 12) ++ byteHex (uuidByte url 13) ++
      byteHex (uuidByte url 14) ++ byteHex (uuidByte url 15) := by
  simp only [uuidStringChars, List.filter_append, filter_byteHex,
    show List.filter (fun c => c != '-') ['-'] = [] from rfl,
    List.append_nil, List.nil_append]

theorem length_filtered_uuidStringChars (url : String) :
    ((uuidStringChars url).filter (fun c => c != '-')).length = 32 := by
  rw [filtered_uuidStringChars]
  simp [byteHex]

theorem mem_filtered_uuid {url : String} {c : Char}
    (hc : c ∈ (uuidStringChars url).filter (fun c => c != '-')) :
    c ∈ lowercaseHexChars := by
  rw [filtered_uuidStringChars] at hc
  simp only [List.mem_append, or_assoc] at hc
  rcases hc with h | h | h | h | h | h | h | h | h | h | h | h | h | h | h | h
  all_goals exact mem_byteHex_lowercaseHex h

/-- The value of day bucket `k` of the record stored under `rid`, when both
the record and the bucket exist. -/
def bucketVal (storage : LocalStorage) (rid k : String) : Option Int :=
  (lookupKey storage.Objects rid).bind (fun object => lookupKey object.usage k)

theorem getURL_miss_state (storage : LocalStorage) {shortID : String}
    (now : Int) (h : lookupKey storage.Objects shortID = none) :
    (storage.GetURL now shortID).1 = storage := by
  unfold LocalStorage.GetURL
  rw [h]

theorem getURL_hit_state (storage : LocalStorage) {shortID : String}
    (now : Int) (object : URLObject)
    (h : lookupKey storage.Objects shortID = some object) :
    (storage.GetURL now shortID).1
      = ⟨setKey storage.Objects shortID { object with
          usage := setKey object.usage
            (toString (UTCTimestampOfTodayRounded now))
            (Usage.getD object.usage
              (toString (UTCTimestampOfTodayRounded now)) + 1) }⟩ := by
  unfold LocalStorage.GetURL
  rw [h]

/-! ## Claim theorems -/

/-- C10: the in-memory backend is total and error-free — on every state and
every input, each of `SaveURL`, `GetURL`, `DeleteURL` and `GetStatistics`
returns a `nil` error; no `BackendFailure` can arise from this backend. -/
theorem localStorage_total_and_error_free (storage : LocalStorage)
    (shortID url : String) (expiration now : Int) :
    (storage.SaveURL shortID url expiration).2 = none ∧
    (storage.GetURL now shortID).2.2 = none ∧
    (storage.DeleteURL shortID).2 = none ∧
    (storage.GetStatistics shortID).2.2 = none := by
  refine ⟨?_, ?_, rfl, ?_⟩
  · unfold LocalStorage.SaveURL
    split <;> rfl
  · unfold LocalStorage.GetURL
    split <;> rfl
  · unfold LocalStorage.GetStatistics
    split <;> rfl

/-- C1 (code bug): miss semantics.  On the in-memory backend `GetURL`,
`GetStatistics` and `DeleteURL` all behave as specified on an absent id, and
on the Dynamo backend `GetURL` and `DeleteURL` do too — but
`DynamoStorage.GetStatistics` on an absent id dereferences the `nil`
`*URLObject` returned by `getObject` and panics instead of returning an empty
mapping with no error.  Evaluated here at an absent id `"zzz"` against a
store holding one unrelated record. -/
theorem storage_miss_semantics_dynamo_stats_panics :
    (LocalStorage.GetURL ⟨[("abc", ⟨"abc", "http://x.com", 0, 0, []⟩)]⟩ 0 "zzz").2
        = ("", none) ∧
    (LocalStorage.GetStatistics ⟨[("abc", ⟨"abc", "http://x.com", 0, 0, []⟩)]⟩ "zzz").2
        = ([], none) ∧
    (LocalStorage.DeleteURL ⟨[("abc", ⟨"abc", "http://x.com", 0, 0, []⟩)]⟩ "zzz").2
        = none ∧
    DynamoStorage.GetURL [("abc", ⟨"abc", "http://x.com", 0, 0, []⟩)] "zzz"
        = ("", none) ∧
    (DynamoStorage.DeleteURL [("abc", ⟨"abc", "http://x.com", 0, 0, []⟩)] "zzz").2
        = none ∧
    DynamoStorage.GetStatistics [("abc", ⟨"abc", "http://x.com", 0, 0, []⟩)] "zzz"
        = StatsOutcome.nilPointerPanic := by
  decide

/-- C2: idempotent create, first writer wins.  On a state where a record for
`shortID` already exists, both backends' `Save` return success and leave the
whole state unchanged; from a state with no record for `shortID`, saving
twice leaves exactly one record and the second save changes nothing. -/
theorem save_idempotent_first_writer_wins
    (storage s₀ : LocalStorage) (table t₀ : DynamoTable)
    (shortID url url' : String) (expiration expiration' : Int)
    (hlocal : (lookupKey storage.Objects shortID).isSome = true)
    (hdyn : (lookupKey table shortID).isSome = true)
    (hs₀ : countKey s₀.Objects shortID = 0)
    (ht₀ : countKey t₀ shortID = 0) :
    storage.SaveURL shortID url' expiration' = (storage, none) ∧
    DynamoStorage.SaveURL table shortID url' expiration' = (table, none) ∧
    ((s₀.SaveURL shortID url expiration).1.SaveURL shortID url' expiration')
      = ((s₀.SaveURL shortID url expiration).1, none) ∧
    countKey ((s₀.SaveURL shortID url expiration).1.SaveURL shortID url'
        expiration').1.Objects shortID = 1 ∧
    (DynamoStorage.SaveURL (DynamoStorage.SaveURL t₀ shortID url expiration).1
        shortID url' expiration')
      = ((DynamoStorage.SaveURL t₀ shortID url expiration).1, none) ∧
    countKey (DynamoStorage.SaveURL (DynamoStorage.SaveURL t₀ shortID url
        expiration).1 shortID url' expiration').1 shortID = 1 := by
  obtain ⟨objL, hobjL⟩ := Option.isSome_iff_exists.mp hlocal
  obtain ⟨objD, hobjD⟩ := Option.isSome_iff_exists.mp hdyn
  have habs : lookupKey s₀.Objects shortID = none :=
    lookupKey_eq_none_of_countKey_eq_zero _ _ hs₀
  have habst : lookupKey t₀ shortID = none :=
    lookupKey_eq_none_of_countKey_eq_zero _ _ ht₀
  have hsave1 : (s₀.SaveURL shortID url expiration).1.Objects
      = setKey s₀.Objects shortID
          ⟨shortID, url, 0, expiration, []⟩ := by
    unfold LocalStorage.SaveURL
    rw [habs]
  have hsave1t : (DynamoStorage.SaveURL t₀ shortID url expiration).1
      = setKey t₀ shortID ⟨shortID, url, 0, expiration, []⟩ := by
    unfold DynamoStorage.SaveURL
    rw [habst]
  have hpresent : lookupKey (s₀.SaveURL shortID url expiration).1.Objects shortID
      = some ⟨shortID, url, 0, expiration, []⟩ := by
    rw [hsave1, lookupKey_setKey, if_pos rfl]
  have hpresentt : lookupKey (DynamoStorage.SaveURL t₀ shortID url expiration).1 shortID
      = some ⟨shortID, url, 0, expiration, []⟩ := by
    rw [hsave1t, lookupKey_setKey, if_pos rfl]
  refine ⟨saveURL_of_present storage url' expiration' objL hobjL,
    dynamoSaveURL_of_present table url' expiration' objD hobjD,
    saveURL_of_present _ url' expiration' _ hpresent, ?_,
    dynamoSaveURL_of_present _ url' expiration' _ hpresentt, ?_⟩
  · rw [saveURL_of_present _ url' expiration' _ hpresent, hsave1]
    exact countKey_setKey_of_absent _ _ _ hs₀
  · rw [dynamoSaveURL_of_present _ url' expiration' _ hpresentt, hsave1t]
    exact countKey_setKey_of_absent _ _ _ ht₀

/-- Witness for C2 at a concrete state: one existing record `"abc"` in each
backend and a fresh empty state for the double-save. -/
theorem save_idempotent_first_writer_wins_witness :
    ((⟨[("abc", ⟨"abc", "u", 0, 0, []⟩)]⟩ : LocalStorage).SaveURL "abc" "v" 7
      = (⟨[("abc", ⟨"abc", "u", 0, 0, []⟩)]⟩, none)) ∧
    countKey (((⟨[]⟩ : LocalStorage).SaveURL "abc" "u" 0).1.SaveURL "abc" "v"
      7).1.Objects "abc" = 1 := by
  have h := save_idempotent_first_writer_wins
    ⟨[("abc", ⟨"abc", "u", 0, 0, []⟩)]⟩ ⟨[]⟩
    [("abc", ⟨"abc", "u", 0, 0, []⟩)] [] "abc" "u" "v" 0 7
    (by decide) (by decide) (by decide) (by decide)
  exact ⟨h.1, h.2.2.2.1⟩

/-- C3: trailing-week aggregation window.  For every usage mapping,
`lastWeek` is exactly the sum of today's bucket and the six preceding day
buckets, and `allTime` sums every bucket regardless of age.  In particular,
for the mapping holding `2` in the bucket 6 days old and `5` in the bucket 8
days old, aggregation yields `lastDay = 0`, `lastWeek = 2` (the 8-day-old
bucket is excluded) and `allTime = 7` (both included). -/
theorem trailing_week_window (usage : Usage) (now : Int) :
    (shortieAPI.GetUsageStats usage now).lastWeek = specLastWeek usage now ∧
    (shortieAPI.GetUsageStats usage now).allTime = (usage.map Prod.snd).sum ∧
    shortieAPI.GetUsageStats
      [(toString (UTCTimestampOfTodayRounded now - 6 * 86400), 2),
       (toString (UTCTimestampOfTodayRounded now - 8 * 86400), 5)] now
      = ⟨0, 2, 7⟩ := by
  refine ⟨lastWeek_eq_specLastWeek usage now, allTime_eq_sum usage now, ?_⟩
  set u2 : Usage :=
    [(toString (UTCTimestampOfTodayRounded now - 6 * 86400), 2),
     (toString (UTCTimestampOfTodayRounded now - 8 * 86400), 5)] with hu2
  have hget : ∀ t : Int,
      Usage.getD u2 (toString t)
      = if UTCTimestampOfTodayRounded now - 6 * 86400 = t then 2
        else if UTCTimestampOfTodayRounded now - 8 * 86400 = t then 5
        else 0 := by
    intro t
    rw [hu2, getD_cons, getD_cons, getD_nil]
    by_cases h6 : UTCTimestampOfTodayRounded now - 6 * 86400 = t
    · rw [if_pos (congrArg toString h6), if_pos h6]
    · rw [if_neg (fun hc => h6 (toString_Int_injective hc)), if_neg h6]
      by_cases h8 : UTCTimestampOfTodayRounded now - 8 * 86400 = t
      · rw [if_pos (congrArg toString h8), if_pos h8]
      · rw [if_neg (fun hc => h8 (toString_Int_injective hc)), if_neg h8]
  have n60 : ¬(UTCTimestampOfTodayRounded now - 6 * 86400
      = UTCTimestampOfTodayRounded now) := by omega
  have n80 : ¬(UTCTimestampOfTodayRounded now - 8 * 86400
      = UTCTimestampOfTodayRounded now) := by omega
  have h6q : ∀ q : Int, q ≠ 6 → ¬(UTCTimestampOfTodayRounded now - 6 * 86400
      = UTCTimestampOfTodayRounded now - q * 86400) := by
    intro q hq
    omega
  have h8q : ∀ q : Int, q ≠ 8 → ¬(UTCTimestampOfTodayRounded now - 8 * 86400
      = UTCTimestampOfTodayRounded now - q * 86400) := by
    intro q hq
    omega
  have hd : (shortieAPI.GetUsageStats u2 now).lastDay = 0 := by
    show Usage.getD u2 (toString (UTCTimestampOfTodayRounded now)) = 0
    rw [hget, if_neg n60, if_neg n80]
  have hw : (shortieAPI.GetUsageStats u2 now).lastWeek = 2 := by
    rw [lastWeek_eq_specLastWeek]
    unfold specLastWeek
    rw [hget, hget, hget, hget, hget, hget, hget,
      if_neg n60, if_neg n80,
      if_neg (h6q 1 (by norm_num)), if_neg (h8q 1 (by norm_num)),
      if_neg (h6q 2 (by norm_num)), if_neg (h8q 2 (by norm_num)),
      if_neg (h6q 3 (by norm_num)), if_neg (h8q 3 (by norm_num)),
      if_neg (h6q 4 (by norm_num)), if_neg (h8q 4 (by norm_num)),
      if_neg (h6q 5 (by norm_num)), if_neg (h8q 5 (by norm_num)),
      if_pos rfl]
    norm_num
  have ha : (shortieAPI.GetUsageStats u2 now).allTime = 7 := by
    rw [allTime_eq_sum, hu2]
    norm_num
  have heta : shortieAPI.GetUsageStats u2 now
      = ⟨(shortieAPI.GetUsageStats u2 now).lastDay,
         (shortieAPI.GetUsageStats u2 now).lastWeek,
         (shortieAPI.GetUsageStats u2 now).allTime⟩ := rfl
  rw [heta, hd, hw, ha]

/-- C4: usage accounting with synchronous increments on the in-memory
backend.  From the empty state: save `"abc" -> "http://x.com"` (expiration
0), call `GetURL` three times, then `GetStatistics` reports exactly one day
bucket — today's — with value 3 and no error, and aggregating that mapping
yields `lastDay = 3, lastWeek = 3, allTime = 3`.  Holds at every instant
`now`. -/
theorem usage_accounting_three_gets (now : Int) :
    (((((LocalStorage.SaveURL ⟨[]⟩ "abc" "http://x.com" 0).1.GetURL now
        "abc").1.GetURL now "abc").1.GetURL now "abc").1.GetStatistics
        "abc").2
      = ([(toString (UTCTimestampOfTodayRounded now), 3)], none) ∧
    shortieAPI.GetUsageStats
      [(toString (UTCTimestampOfTodayRounded now), 3)] now = ⟨3, 3, 3⟩ := by
  have h0 : (LocalStorage.SaveURL ⟨[]⟩ "abc" "http://x.com" 0).1
      = ⟨[("abc", ⟨"abc", "http://x.com", 0, 0, []⟩)]⟩ := rfl
  have hA1 : ((⟨[("abc", ⟨"abc", "http://x.com", 0, 0, []⟩)]⟩ :
        LocalStorage).GetURL now "abc").1
      = ⟨[("abc", ⟨"abc", "http://x.com", 0, 0,
          [(toString (UTCTimestampOfTodayRounded now), 1)]⟩)]⟩ := by
    rw [getURL_hit_state _ now ⟨"abc", "http://x.com", 0, 0, []⟩
      (by simp [lookupKey])]
    simp [setKey, Usage.getD, lookupKey]
  have hA2 : ((⟨[("abc", ⟨"abc", "http://x.com", 0, 0,
        [(toString (UTCTimestampOfTodayRounded now), 1)]⟩)]⟩ :
        LocalStorage).GetURL now "abc").1
      = ⟨[("abc", ⟨"abc", "http://x.com", 0, 0,
          [(toString (UTCTimestampOfTodayRounded now), 2)]⟩)]⟩ := by
    rw [getURL_hit_state _ now ⟨"abc", "http://x.com", 0, 0,
      [(toString (UTCTimestampOfTodayRounded now), 1)]⟩ (by simp [lookupKey])]
    norm_num [setKey, Usage.getD, lookupKey]
  have hA3 : ((⟨[("abc", ⟨"abc", "http://x.com", 0, 0,
        [(toString (UTCTimestampOfTodayRounded now), 2)]⟩)]⟩ :
        LocalStorage).GetURL now "abc").1
      = ⟨[("abc", ⟨"abc", "http://x.com", 0, 0,
          [(toString (UTCTimestampOfTodayRounded now), 3)]⟩)]⟩ := by
    rw [getURL_hit_state _ now ⟨"abc", "http://x.com", 0, 0,
      [(toString (UTCTimestampOfTodayRounded now), 2)]⟩ (by simp [lookupKey])]
    norm_num [setKey, Usage.getD, lookupKey]
  have hstats : ((⟨[("abc", ⟨"abc", "http://x.com", 0, 0,
        [(toString (UTCTimestampOfTodayRounded now), 3)]⟩)]⟩ :
        LocalStorage).GetStatistics "abc").2
      = ([(toString (UTCTimestampOfTodayRounded now), 3)], none) := by
    unfold LocalStorage.GetStatistics
    rw [show lookupKey
        [("abc", (⟨"abc", "http://x.com", 0, 0,
          [(toString (UTCTimestampOfTodayRounded now), 3)]⟩ : URLObject))]
        "abc"
      = some ⟨"abc", "http://x.com", 0, 0,
          [(toString (UTCTimestampOfTodayRounded now), 3)]⟩
      from by simp [lookupKey]]
  have hkey : ∀ q : Int, q ≠ 0 →
      ¬(toString (UTCTimestampOfTodayRounded now)
        = toString (UTCTimestampOfTodayRounded now - q * 86400)) :=
    fun q hq => toString_Int_ne (by omega)
  have hld : (shortieAPI.GetUsageStats
      [(toString (UTCTimestampOfTodayRounded now), 3)] now).lastDay = 3 := by
    show Usage.getD [(toString (UTCTimestampOfTodayRounded now), 3)]
      (toString (UTCTimestampOfTodayRounded now)) = 3
    rw [getD_cons, if_pos rfl]
  have hlw : (shortieAPI.GetUsageStats
      [(toString (UTCTimestampOfTodayRounded now), 3)] now).lastWeek = 3 := by
    rw [lastWeek_eq_specLastWeek]
    unfold specLastWeek
    simp only [getD_cons, getD_nil]
    rw [if_neg (hkey 1 (by norm_num)), if_neg (hkey 2 (by norm_num)),
      if_neg (hkey 3 (by norm_num)), if_neg (hkey 4 (by norm_num)),
      if_neg (hkey 5 (by norm_num)), if_neg (hkey 6 (by norm_num))]
    norm_num
  have hla : (shortieAPI.GetUsageStats
      [(toString (UTCTimestampOfTodayRounded now), 3)] now).allTime = 3 := by
    rw [allTime_eq_sum]
    norm_num
  have heta : shortieAPI.GetUsageStats
      [(toString (UTCTimestampOfTodayRounded now), 3)] now
      = ⟨(shortieAPI.GetUsageStats
            [(toString (UTCTimestampOfTodayRounded now), 3)] now).lastDay,
         (shortieAPI.GetUsageStats
            [(toString (UTCTimestampOfTodayRounded now), 3)] now).lastWeek,
         (shortieAPI.GetUsageStats
            [(toString (UTCTimestampOfTodayRounded now), 3)] now).allTime⟩ :=
    rfl
  refine ⟨?_, ?_⟩
  · rw [h0, hA1, hA2, hA3, hstats]
  · rw [heta, hld, hlw, hla]

/-- C6: expiration is not enforced on any read path — whenever `shortID` maps
to a record, `GetURL` returns that record's URL with no error, whatever the
record's `expiration` field holds (the field is never consulted). -/
theorem expiration_not_enforced_on_read (storage : LocalStorage) (now : Int)
    (shortID : String) (object : URLObject)
    (hobj : lookupKey storage.Objects shortID = some object) :
    (storage.GetURL now shortID).2 = (object.url, none) := by
  unfold LocalStorage.GetURL
  rw [hobj]

/-- Witness for C6: a record whose expiration (5) is nonzero and strictly
earlier than the current time (1000000) is still served. -/
theorem expiration_not_enforced_on_read_witness :
    ((5 : Int) ≠ 0 ∧ (5 : Int) < 1000000) ∧
    ((⟨[("abc", ⟨"abc", "http://x.com", 0, 5, []⟩)]⟩ : LocalStorage).GetURL
        1000000 "abc").2 = ("http://x.com", none) :=
  ⟨by decide, expiration_not_enforced_on_read
    ⟨[("abc", ⟨"abc", "http://x.com", 0, 5, []⟩)]⟩ 1000000 "abc"
    ⟨"abc", "http://x.com", 0, 5, []⟩ (by decide)⟩

/-- C9: absence is encoded as the empty string.  After saving a record with
URL `""` under a fresh id, `GetURL` on that id returns exactly what it
returns on an absent id (`""`, no error), and `HandleRedirect` consequently
answers 404 for it. -/
theorem empty_url_conflated_with_miss (storage : LocalStorage)
    (now expiration : Int) (shortID other : String)
    (hfresh : lookupKey storage.Objects shortID = none)
    (habsent : lookupKey storage.Objects other = none) :
    ((storage.SaveURL shortID "" expiration).1.GetURL now shortID).2
        = (storage.GetURL now other).2 ∧
    (storage.GetURL now other).2 = ("", none) ∧
    (shortieAPI.HandleRedirect (storage.SaveURL shortID "" expiration).1 now
        shortID).1 = RedirectResponse.notFound := by
  have hs : (storage.SaveURL shortID "" expiration).1.Objects
      = setKey storage.Objects shortID ⟨shortID, "", 0, expiration, []⟩ := by
    unfold LocalStorage.SaveURL
    rw [hfresh]
  have hpres : lookupKey (storage.SaveURL shortID "" expiration).1.Objects shortID
      = some ⟨shortID, "", 0, expiration, []⟩ := by
    rw [hs, lookupKey_setKey, if_pos rfl]
  have hget : ((storage.SaveURL shortID "" expiration).1.GetURL now shortID).2
      = ("", none) := by
    unfold LocalStorage.GetURL
    rw [hpres]
  have hmiss : (storage.GetURL now other).2 = ("", none) := by
    unfold LocalStorage.GetURL
    rw [habsent]
  have h22 : ((storage.SaveURL shortID "" expiration).1.GetURL now shortID).2.2
      = none := by rw [hget]
  have h21 : ((storage.SaveURL shortID "" expiration).1.GetURL now shortID).2.1
      = "" := by rw [hget]
  refine ⟨hget.trans hmiss.symm, hmiss, ?_⟩
  unfold shortieAPI.HandleRedirect
  simp [h22, h21]

/-- Witness for C9: saving `""` under the fresh id `"e"` in the empty state
makes `GetURL "e"` indistinguishable from `GetURL` on the absent id `"x"`,
and the redirect handler answers 404. -/
theorem empty_url_conflated_with_miss_witness :
    (((⟨[]⟩ : LocalStorage).SaveURL "e" "" 9).1.GetURL 0 "e").2
        = ((⟨[]⟩ : LocalStorage).GetURL 0 "x").2 ∧
    ((⟨[]⟩ : LocalStorage).GetURL 0 "x").2 = ("", none) ∧
    (shortieAPI.HandleRedirect ((⟨[]⟩ : LocalStorage).SaveURL "e" "" 9).1 0
        "e").1 = RedirectResponse.notFound :=
  empty_url_conflated_with_miss ⟨[]⟩ 0 9 "e" "x" (by decide) (by decide)

/-- The day-bucket key computed at the write site — the usage increment in
`LocalStorage.GetURL` (and in the Dynamo backend's detached increment task):
`strconv.Itoa(int(UTCTimestampOfTodayRounded().Unix()))`. -/
def writerDayBucketKey (now : Int) : String :=
  toString (UTCTimestampOfTodayRounded now)

/-- The day-bucket key computed at the read site — the "today" lookup in
`shortieAPI.GetUsageStats`:
`strconv.Itoa(int(UTCTimestampOfTodayRounded().Unix()))`. -/
def readerDayBucketKey (now : Int) : String :=
  toString (UTCTimestampOfTodayRounded now)

/-- Modelled from the spec's words: "truncate the current time to UTC
midnight, take its unix-seconds value, stringify it"; truncation to midnight
is dropping the seconds elapsed since midnight, `now - now % 86400`. -/
def specDayBucketKey (now : Int) : String := toString (now - now % 86400)

/-- C7: day-bucket key derivation is consistent between writer and reader:
at every instant the key written by `GetURL`'s increment and the key read by
the aggregation agree, both equal the decimal string of the unix-seconds
value of the current time truncated to UTC midnight, `GetUsageStats` reads
its `lastDay` at exactly that key, and `GetURL` writes at exactly that key. -/
theorem day_bucket_key_writer_reader_consistent (now : Int) (usage : Usage)
    (storage : LocalStorage) (shortID : String) (object : URLObject)
    (hobj : lookupKey storage.Objects shortID = some object) :
    writerDayBucketKey now = readerDayBucketKey now ∧
    writerDayBucketKey now = specDayBucketKey now ∧
    (shortieAPI.GetUsageStats usage now).lastDay
        = Usage.getD usage (readerDayBucketKey now) ∧
    (storage.GetURL now shortID).1.Objects
        = setKey storage.Objects shortID { object with
            usage := setKey object.usage (writerDayBucketKey now)
              (Usage.getD object.usage (writerDayBucketKey now) + 1) } := by
  refine ⟨rfl, ?_, rfl, ?_⟩
  · unfold writerDayBucketKey specDayBucketKey UTCTimestampOfTodayRounded
    exact congrArg toString (by omega)
  · unfold LocalStorage.GetURL
    rw [hobj]
    rfl

/-- C5: the short identifier is a deterministic function of the URL alone,
has fixed length 10, and consists only of lowercase characters (lowercase
hex digits — never an uppercase letter). -/
theorem createURL_shortID_fixed_length_lowercase_deterministic
    (url url' : String) :
    (shortieAPI.CreateURLShortID url).length = 10 ∧
    (∀ c ∈ (shortieAPI.CreateURLShortID url).data, c ∈ lowercaseHexChars) ∧
    (∀ c ∈ (shortieAPI.CreateURLShortID url).data, c.isUpper = false) ∧
    (url = url' →
      shortieAPI.CreateURLShortID url = shortieAPI.CreateURLShortID url') := by
  have hasStr : ∀ l : List Char, (List.asString l).data = l := fun l => rfl
  have hdata : (shortieAPI.CreateURLShortID url).data
      = ((uuidStringChars url).filter (fun c => c != '-')).take 10 :=
    hasStr (((uuidStringChars url).filter (fun c => c != '-')).take 10)
  have hmem : ∀ c ∈ (shortieAPI.CreateURLShortID url).data,
      c ∈ lowercaseHexChars := by
    intro c hc
    rw [hdata] at hc
    exact mem_filtered_uuid (List.take_subset _ _ hc)
  refine ⟨?_, hmem, ?_, fun h => by rw [h]⟩
  · have hlen : ∀ s : String, s.length = s.data.length := fun _ => rfl
    rw [hlen, hdata, List.length_take, length_filtered_uuidStringChars]
    norm_num
  · intro c hc
    exact (by decide : ∀ c' ∈ lowercaseHexChars, c'.isUpper = false) c
      (hmem c hc)

/-- Witness for C5: the deterministic-repetition conjunct at the concrete
URL from the repository's test suite. -/
theorem createURL_shortID_deterministic_witness :
    "https://example.com/data/hi" = "https://example.com/data/hi" ∧
    shortieAPI.CreateURLShortID "https://example.com/data/hi"
      = shortieAPI.CreateURLShortID "https://example.com/data/hi" :=
  ⟨rfl, (createURL_shortID_fixed_length_lowercase_deterministic
    "https://example.com/data/hi" "https://example.com/data/hi").2.2.2 rfl⟩

/-- C8: on the in-memory backend the usage mapping only grows.  `SaveURL`
never changes any existing bucket, `GetStatistics` leaves the state
untouched, `GetURL` changes no bucket other than today's bucket of the
queried record, and any bucket present before an operation is still present
afterwards with a value at least as large. -/
theorem usage_mapping_only_grows (storage : LocalStorage)
    (shortID url rid k : String) (expiration now : Int) (v : Int) :
    bucketVal (storage.SaveURL shortID url expiration).1 rid k
        = bucketVal storage rid k ∧
    (storage.GetStatistics shortID).1 = storage ∧
    ((k ≠ toString (UTCTimestampOfTodayRounded now) ∨ rid ≠ shortID) →
      bucketVal (storage.GetURL now shortID).1 rid k
        = bucketVal storage rid k) ∧
    (bucketVal storage rid k = some v →
      ∃ w, bucketVal (storage.GetURL now shortID).1 rid k = some w ∧ v ≤ w) := by
  have hsave : bucketVal (storage.SaveURL shortID url expiration).1 rid k
      = bucketVal storage rid k := by
    cases hlook : lookupKey storage.Objects shortID with
    | some object =>
      rw [saveURL_of_present storage url expiration object hlook]
    | none =>
      unfold LocalStorage.SaveURL
      rw [hlook]
      unfold bucketVal
      dsimp only
      rw [lookupKey_setKey]
      by_cases hr : shortID = rid
      · subst hr
        rw [if_pos rfl, hlook]
        rfl
      · rw [if_neg hr]
  have hframe : (k ≠ toString (UTCTimestampOfTodayRounded now) ∨ rid ≠ shortID) →
      bucketVal (storage.GetURL now shortID).1 rid k
        = bucketVal storage rid k := by
    intro hcond
    cases hlook : lookupKey storage.Objects shortID with
    | none => rw [getURL_miss_state storage now hlook]
    | some object =>
      unfold bucketVal
      rw [getURL_hit_state storage now object hlook]
      dsimp only
      rw [lookupKey_setKey]
      by_cases hr : shortID = rid
      · subst hr
        rcases hcond with hk | hrr
        · rw [if_pos rfl, hlook]
          rw [Option.some_bind]
          rw [lookupKey_setKey, if_neg (fun hc => hk hc.symm)]
          rfl
        · exact absurd rfl hrr
      · rw [if_neg hr]
  refine ⟨hsave, getStatistics_state_eq storage shortID, hframe, ?_⟩
  intro hv
  by_cases hr : rid = shortID
  · subst hr
    by_cases hk : k = toString (UTCTimestampOfTodayRounded now)
    · cases hlook : lookupKey storage.Objects rid with
      | none =>
        unfold bucketVal at hv
        rw [hlook] at hv
        simp at hv
      | some object =>
        unfold bucketVal at hv
        rw [hlook] at hv
        rw [Option.some_bind] at hv
        refine ⟨v + 1, ?_, by omega⟩
        unfold bucketVal
        rw [getURL_hit_state storage now object hlook]
        dsimp only
        rw [lookupKey_setKey, if_pos rfl]
        rw [Option.some_bind]
        subst hk
        rw [lookupKey_setKey, if_pos rfl]
        unfold Usage.getD
        rw [hv]
        rfl
    · refine ⟨v, ?_, le_refl v⟩
      rw [hframe (Or.inl hk), hv]
  · refine ⟨v, ?_, le_refl v⟩
    rw [hframe (Or.inr hr), hv]

/-- Witness for C8: a record `"a"` holding bucket `("k", 5)`; a `GetURL` at
instant 0 keeps the bucket (today's key is `"0"` ≠ `"k"`) and any stored
bucket value never decreases. -/
theorem usage_mapping_only_grows_witness :
    (bucketVal ((⟨[("a", ⟨"a", "u", 0, 0, [("k", 5)]⟩)]⟩ :
        LocalStorage).GetURL 0 "a").1 "a" "k"
      = bucketVal ⟨[("a", ⟨"a", "u", 0, 0, [("k", 5)]⟩)]⟩ "a" "k") ∧
    (∃ w, bucketVal ((⟨[("a", ⟨"a", "u", 0, 0, [("k", 5)]⟩)]⟩ :
        LocalStorage).GetURL 0 "a").1 "a" "k" = some w ∧ 5 ≤ w) :=
  ⟨(usage_mapping_only_grows ⟨[("a", ⟨"a", "u", 0, 0, [("k", 5)]⟩)]⟩
      "a" "u" "a" "k" 0 0 5).2.2.1 (Or.inl (by decide)),
   (usage_mapping_only_grows ⟨[("a", ⟨"a", "u", 0, 0, [("k", 5)]⟩)]⟩
      "a" "u" "a" "k" 0 0 5).2.2.2 (by decide)⟩

/-- Witness for C7 at a concrete instant and a concrete one-record state. -/
theorem day_bucket_key_writer_reader_consistent_witness :
    writerDayBucketKey 1700000000 = specDayBucketKey 1700000000 ∧
    ((⟨[("a", ⟨"a", "u", 0, 0, []⟩)]⟩ : LocalStorage).GetURL 1700000000
        "a").1.Objects
      = setKey [("a", ⟨"a", "u", 0, 0, []⟩)] "a"
          ⟨"a", "u", 0, 0, setKey [] (writerDayBucketKey 1700000000)
            (Usage.getD [] (writerDayBucketKey 1700000000) + 1)⟩ := by
  have h := day_bucket_key_writer_reader_consistent 1700000000 []
    ⟨[("a", ⟨"a", "u", 0, 0, []⟩)]⟩ "a" ⟨"a", "u", 0, 0, []⟩ (by decide)
  exact ⟨h.2.1, h.2.2.2⟩
